import Mathlib

/-!
Verification of the stockMarketAnalyzer repository's retrieval-with-fallback
pipeline specification against its code.

The frontend components (StockCard.js, StockPage.js, HomePage.js) are embedded
directly from the JavaScript source.  JavaScript numbers are modelled as exact
rationals (ℚ); `toFixed(2)` is modelled for values whose decimal expansion the
method prints in positional notation (|value| < 10^21), which covers every value
the claims touch.  A thrown TypeError is modelled as `none` in an `Option`
result.  The backend pipeline (Flask app.py) is not part of the provided source
tree, so its operations are modelled from the specification text; each such
definition is marked `Modelled from the spec:` in its doc comment.
-/

namespace StockAnalyzer

/-- A JavaScript value as it reaches `formatNumber`: either a number (modelled
as an exact rational) or a string (the upstream serializes absent numeric
fields as the string marker, e.g. the exact string N/A). -/
inductive JSVal where
  | num (q : ℚ)
  | str (s : String)
  deriving DecidableEq

/-- Value of a list of decimal digit characters, most significant first. -/
def natOfDigits (cs : List Char) : ℕ :=
  cs.foldl (fun n c => n * 10 + (c.toNat - 48)) 0

/-- JavaScript whitespace as far as `trim` and `Number` coercion are concerned
(the ASCII fragment). -/
def isJsSpace (c : Char) : Bool :=
  c = ' ' ∨ c = '\t' ∨ c = '\n' ∨ c = '\r'

/-- JavaScript `String.prototype.trim`: strip whitespace from both ends. -/
def jsTrimList (cs : List Char) : List Char :=
  (((cs.dropWhile isJsSpace).reverse).dropWhile isJsSpace).reverse

/-- A non-NaN JavaScript number as produced by the `ToNumber` coercion of a
string: a finite value (exact rational) or one of the two infinities.  NaN is
modelled as `none` at the `Option JsNumber` level. -/
inductive JsNumber where
  | finite (q : ℚ)
  | posInf
  | negInf
  deriving DecidableEq

/-- JavaScript unary minus on a coerced number. -/
def JsNumber.neg : JsNumber → JsNumber
  | .finite q => .finite (-q)
  | .posInf => .negInf
  | .negInf => .posInf

/-- Ten to an integer power, as an exact rational. -/
def qpow10 : ℤ → ℚ
  | .ofNat n => (10 : ℚ) ^ n
  | .negSucc n => 1 / (10 : ℚ) ^ (n + 1)

/-- Parse the optional ExponentPart of a StrDecimalLiteral: empty yields
exponent zero; otherwise e/E, an optional sign, and at least one digit. -/
def parseExpPart : List Char → Option ℤ
  | [] => some 0
  | c :: r =>
      if c = 'e' ∨ c = 'E' then
        match r with
        | '+' :: d =>
            if d ≠ [] ∧ d.all Char.isDigit then some (natOfDigits d : ℤ) else none
        | '-' :: d =>
            if d ≠ [] ∧ d.all Char.isDigit then some (-(natOfDigits d : ℤ)) else none
        | d =>
            if d ≠ [] ∧ d.all Char.isDigit then some (natOfDigits d : ℤ) else none
      else none

/-- Parse an unsigned StrDecimalLiteral body (without the Infinity form):
digits, digits dot digits, or dot digits, each with an optional exponent
part. -/
def parseDecimalBody (cs : List Char) : Option ℚ :=
  let ip := cs.takeWhile Char.isDigit
  let r1 := cs.dropWhile Char.isDigit
  match r1 with
  | '.' :: r2 =>
      let fp := r2.takeWhile Char.isDigit
      let r3 := r2.dropWhile Char.isDigit
      if ip = [] ∧ fp = [] then none
      else
        (parseExpPart r3).map (fun e =>
          ((natOfDigits ip : ℚ) + (natOfDigits fp : ℚ) / 10 ^ fp.length) * qpow10 e)
  | _ =>
      if ip = [] then none
      else (parseExpPart r1).map (fun e => (natOfDigits ip : ℚ) * qpow10 e)

/-- An unsigned StrUnsignedDecimalLiteral: the exact word Infinity, or a
decimal body. -/
def parseUnsignedNumeric (cs : List Char) : Option JsNumber :=
  if cs = "Infinity".data then some .posInf
  else (parseDecimalBody cs).map .finite

/-- Hexadecimal digit predicate of the HexIntegerLiteral grammar. -/
def isHexDig (c : Char) : Bool :=
  c.isDigit ∨ ('a' ≤ c ∧ c ≤ 'f') ∨ ('A' ≤ c ∧ c ≤ 'F')

/-- Value of a hexadecimal digit character. -/
def hexVal (c : Char) : ℕ :=
  if c.isDigit then c.toNat - 48
  else if 'a' ≤ c ∧ c ≤ 'f' then c.toNat - 87
  else c.toNat - 55

/-- Value of a digit list in a given radix, most significant first. -/
def natOfRadix (radix : ℕ) (val : Char → ℕ) (cs : List Char) : ℕ :=
  cs.foldl (fun n c => n * radix + val c) 0

/-- Model of the JavaScript `ToNumber(string)` coercion (the
StringNumericLiteral grammar): surrounding whitespace is stripped, the empty
string is zero, 0x/0X, 0o/0O and 0b/0B introduce unsigned hex, octal and
binary integer literals, and otherwise an optionally signed decimal literal
— digits with optional fraction and exponent, or the word Infinity — is
read; everything else is NaN, modelled as `none`.  Digit strings are read as
exact rationals; the final rounding of `ToNumber` to binary floating point
is not modelled, as declared in the file header. -/
def jsStringToNumber (s : String) : Option JsNumber :=
  match jsTrimList s.data with
  | [] => some (.finite 0)
  | '0' :: x :: r =>
      if x = 'x' ∨ x = 'X' then
        if r ≠ [] ∧ r.all isHexDig then
          some (.finite (natOfRadix 16 hexVal r : ℚ))
        else none
      else if x = 'o' ∨ x = 'O' then
        if r ≠ [] ∧ r.all (fun c => '0' ≤ c ∧ c ≤ '7') then
          some (.finite (natOfRadix 8 (fun c => c.toNat - 48) r : ℚ))
        else none
      else if x = 'b' ∨ x = 'B' then
        if r ≠ [] ∧ r.all (fun c => c = '0' ∨ c = '1') then
          some (.finite (natOfRadix 2 (fun c => c.toNat - 48) r : ℚ))
        else none
      else parseUnsignedNumeric ('0' :: x :: r)
  | '+' :: r => parseUnsignedNumeric r
  | '-' :: r => (parseUnsignedNumeric r).map JsNumber.neg
  | t => parseUnsignedNumeric t

/-- Round a non-negative rational to the nearest multiple of 1/100 scaled to an
integer, ties away from zero (the ECMAScript `toFixed` rule picks the larger
candidate); computed as a floor of (200·num + den)/(2·den) in ℕ. -/
def round2 (q : ℚ) : ℕ :=
  (200 * q.num.toNat + q.den) / (2 * q.den)

/-- `toFixed(2)` on a non-negative rational: round half-up to two decimals,
then print integer part, a dot, and exactly two decimal digits. -/
def toFixed2Abs (q : ℚ) : String :=
  let m : ℕ := round2 q
  toString (m / 100) ++ "." ++ (if m % 100 < 10 then "0" else "") ++ toString (m % 100)

/-- JavaScript `Number.prototype.toFixed(2)`: a leading minus sign for negative
values, then the rounded absolute value with two decimals. -/
def toFixed2 (q : ℚ) : String :=
  if q < 0 then "-" ++ toFixed2Abs (-q) else toFixed2Abs q

/-- The JavaScript relational comparison `v >= c` where `c` is a finite
number: a number compares directly, a string is coerced with `ToNumber`;
positive infinity exceeds every threshold, negative infinity none, and a NaN
coercion makes the comparison false. -/
def jsGE (v : JSVal) (c : ℚ) : Bool :=
  match v with
  | .num q => decide (c ≤ q)
  | .str s =>
      match jsStringToNumber s with
      | some (.finite q) => decide (c ≤ q)
      | some .posInf => true
      | some .negInf => false
      | none => false

/-- The JavaScript division `v / c` for a positive finite literal `c`: a
number divides directly, a string is coerced first; an infinity keeps its
sign, a NaN coercion gives NaN (`none`). -/
def jsDiv (v : JSVal) (c : ℚ) : Option JsNumber :=
  match v with
  | .num q => some (.finite (q / c))
  | .str s =>
      (jsStringToNumber s).map (fun n =>
        match n with
        | .finite q => .finite (q / c)
        | .posInf => .posInf
        | .negInf => .negInf)

/-- `toFixed(2)` on the result of a JavaScript arithmetic step: finite values
print positionally with two decimals, the infinities print as their
ToString forms, NaN prints as NaN. -/
def jsToFixed2 : Option JsNumber → String
  | some (.finite q) => toFixed2 q
  | some .posInf => "Infinity"
  | some .negInf => "-Infinity"
  | none => "NaN"

/-- `formatNumber` from src/frontend/src/components/StockCard.js lines 13-24
(the identical copy is at src/frontend/src/pages/StockPage.js lines 43-54):
the exact string N/A is returned unchanged; then three threshold branches
divide by 1e9 / 1e6 / 1e3 and suffix B / M / K; the final template calls
`num?.toFixed(2)`, which throws a TypeError (modelled as `none`) when `num`
is a string, since strings have no `toFixed` and optional chaining only guards
null and undefined. -/
def formatNumber (v : JSVal) : Option String :=
  if v = .str "N/A" then some "N/A"
  else if jsGE v 1000000000 then some ("$" ++ jsToFixed2 (jsDiv v 1000000000) ++ "B")
  else if jsGE v 1000000 then some ("$" ++ jsToFixed2 (jsDiv v 1000000) ++ "M")
  else if jsGE v 1000 then some ("$" ++ jsToFixed2 (jsDiv v 1000) ++ "K")
  else
    match v with
    | .num q => some ("$" ++ toFixed2 q)
    | .str _ => none

example : formatNumber (.num 0) = some "$0.00" := by decide
example : formatNumber (.str "N/A") = some "N/A" := by decide
example : formatNumber (.str "5000") = some "$5.00K" := by with_unfolding_all rfl
example : formatNumber (.str "abc") = none := by decide
example : formatNumber (.num 2500000000) = some "$2.50B" := by with_unfolding_all rfl
example : formatNumber (.num (-5)) = some "$-5.00" := by decide
example : formatNumber (.num 1234567) = some "$1.23M" := by with_unfolding_all rfl
example : formatNumber (.num (3/2)) = some "$1.50" := by with_unfolding_all rfl
example : formatNumber (.str "1e5") = some "$100.00K" := by with_unfolding_all rfl
example : formatNumber (.str "0x500") = some "$1.28K" := by with_unfolding_all rfl
example : formatNumber (.str "Infinity") = some "$InfinityB" := by
  with_unfolding_all rfl
example : formatNumber (.str "-Infinity") = none := by with_unfolding_all rfl
example : jsStringToNumber "1e-2" = some (.finite (1/100)) := by
  with_unfolding_all rfl
example : jsStringToNumber ".5" = some (.finite (1/2)) := by with_unfolding_all rfl
example : jsStringToNumber "" = some (.finite 0) := by decide
example : jsStringToNumber "-0x10" = none := by decide
example : jsStringToNumber "1e" = none := by decide

/-- The icon rendered inside the change chip. -/
inductive ChipIcon where
  | trendingUp
  | trendingDown
  deriving DecidableEq

/-- The Material-UI color prop of the change chip. -/
inductive ChipColor where
  | success
  | error
  deriving DecidableEq

/-- What the change chip displays: its icon, whether the label template
inserted a plus sign, the full label, and the color. -/
structure ChipView where
  icon : ChipIcon
  showPlus : Bool
  label : String
  color : ChipColor
  deriving DecidableEq

/-- The change chip from src/frontend/src/components/StockCard.js lines 27
and 47-52 (the identical markup is at src/frontend/src/pages/StockPage.js
lines 194 and 207-212): `isPositive = stock.change > 0`, the icon is
TrendingUp when positive else TrendingDown, the label template prepends a
plus sign exactly when positive and appends `toFixed(2)` of the change and a
percent sign, and the color is success when positive else error. -/
def changeChip (change : ℚ) : ChipView :=
  let isPositive := decide (0 < change)
  { icon := if isPositive then .trendingUp else .trendingDown
    showPlus := isPositive
    label := (if isPositive then "+" else "") ++ toFixed2 change ++ "%"
    color := if isPositive then .success else .error }

/-- One sample of the historical series as consumed by the chart
(src/frontend/src/pages/StockPage.js lines 158-169 read item.date and
item.close). -/
structure HistoryPoint where
  date : String
  close : ℚ
  deriving DecidableEq

/-- The two React state cells written by `fetchHistoricalData`:
`stockHistory` (null until first successful load) and `timeRange`. -/
structure HistViewState where
  stockHistory : Option (List HistoryPoint)
  timeRange : String
  deriving DecidableEq

/-- Outcome of the axios request issued by `fetchHistoricalData`: either the
promise rejected (network/HTTP error, caught by the surrounding try) or a
response arrived carrying a success flag and a data payload. -/
inductive HistResponse where
  | thrown
  | payload (success : Bool) (data : List HistoryPoint)

/-- `fetchHistoricalData` from src/frontend/src/pages/StockPage.js lines
102-112 as a state transition: on a response with success true it sets
`stockHistory` to the payload and `timeRange` to the requested period; on
success false it does nothing; a thrown error is caught and only logged, so
the state is also unchanged. -/
def fetchHistoricalData (st : HistViewState) (period : String)
    (resp : HistResponse) : HistViewState :=
  match resp with
  | .thrown => st
  | .payload success data =>
      if success then { stockHistory := some data, timeRange := period } else st

/-- One entry of the `timeRanges` array: button label and period value. -/
structure TimeRange where
  label : String
  value : String
  deriving DecidableEq

/-- The `timeRanges` array from src/frontend/src/pages/StockPage.js lines
69-75, verbatim. -/
def timeRanges : List TimeRange :=
  [⟨"1M", "1mo"⟩, ⟨"3M", "3mo"⟩, ⟨"6M", "6mo"⟩, ⟨"1Y", "1y"⟩, ⟨"5Y", "5y"⟩]

/-- The initial value of the `timeRange` state cell,
src/frontend/src/pages/StockPage.js line 65: `useState(dollar-free 1y)`. -/
def initialTimeRange : String := "1y"

/-- JavaScript `String.prototype.trim` on a Lean string. -/
def jsTrim (s : String) : String :=
  ⟨jsTrimList s.data⟩

/-- JavaScript `String.prototype.toUpperCase` on the ASCII fragment tickers
live in. -/
def jsToUpper (s : String) : String :=
  ⟨s.data.map Char.toUpper⟩

/-- `handleSearch` from HomePage.js (embedded in src/README.md lines
259-264): if the trimmed search term is truthy (non-empty) it navigates to
the path made of the stock route and the trimmed, uppercased term; otherwise
it performs no navigation (`none`). -/
def handleSearch (searchTerm : String) : Option String :=
  if jsTrim searchTerm ≠ "" then
    some ("/stock/" ++ jsToUpper (jsTrim searchTerm))
  else none

example : handleSearch "  aapl " = some "/stock/AAPL" := by decide
example : handleSearch "   " = none := by decide

/-- Modelled from the spec: the backend app.py is not under src/, so the data
model of §3 is taken from the spec text.  A numeric StockRecord field is a
decimal value or the explicit unavailable marker — never null conflated with
zero. -/
inductive FieldVal where
  | val (q : ℚ)
  | unavailable
  deriving DecidableEq

/-- Modelled from the spec: provenance tags of §3 and the glossary — LIVE,
CACHED, FALLBACK, plus the fourth marker distinguishing total failure from a
fallback hit (§4.4 step 5). -/
inductive SourceTag where
  | live
  | cached
  | fallback
  | totalFailure
  deriving DecidableEq

/-- Modelled from the spec: the StockRecord of §3, the normalized unit
returned to every caller, with each numeric field either a value or the
unavailable marker, and a sourceTag reflecting the producing tier. -/
structure StockRecord where
  ticker : String
  name : String
  price : FieldVal
  change : FieldVal
  marketCap : FieldVal
  volume : FieldVal
  averageVolume : FieldVal
  dividendYield : FieldVal
  pe : FieldVal
  eps : FieldVal
  targetLow : FieldVal
  targetHigh : FieldVal
  recommendation : String
  sourceTag : SourceTag
  deriving DecidableEq

/-- Modelled from the spec: the synthetic unavailable record of §4.4 step 5 —
every numeric field carries the unavailable marker and the tag is the
total-failure marker. -/
def unavailableRecord (t : String) : StockRecord where
  ticker := t
  name := ""
  price := .unavailable
  change := .unavailable
  marketCap := .unavailable
  volume := .unavailable
  averageVolume := .unavailable
  dividendYield := .unavailable
  pe := .unavailable
  eps := .unavailable
  targetLow := .unavailable
  targetHigh := .unavailable
  recommendation := "unavailable"
  sourceTag := .totalFailure

/-- Every numeric field of the record carries the unavailable marker. -/
def allNumericUnavailable (r : StockRecord) : Prop :=
  r.price = .unavailable ∧ r.change = .unavailable ∧ r.marketCap = .unavailable ∧
  r.volume = .unavailable ∧ r.averageVolume = .unavailable ∧
  r.dividendYield = .unavailable ∧ r.pe = .unavailable ∧ r.eps = .unavailable ∧
  r.targetLow = .unavailable ∧ r.targetHigh = .unavailable

instance (r : StockRecord) : Decidable (allNumericUnavailable r) := by
  unfold allNumericUnavailable
  infer_instance

/-- Modelled from the spec: §4.1 — the Upstream Client's outcome for a quote
request: a payload, or one of the distinguished failure reasons RateLimited,
NotFound, Unavailable. -/
inductive UpstreamResult where
  | success (r : StockRecord)
  | rateLimited
  | notFound
  | unavailable

/-- Modelled from the spec: the ticker format invariant of §3 — 1 to 5
alphanumeric characters (checked after normalization has uppercased it). -/
def validTicker (t : String) : Bool :=
  t ≠ "" ∧ t.data.length ≤ 5 ∧ t.data.all Char.isAlphanum

/-- Modelled from the spec: §4.4 step 1 — normalize the ticker by trimming
whitespace and uppercasing. -/
def normalizeTicker (raw : String) : String :=
  jsToUpper (jsTrim raw)

/-- Modelled from the spec: §3 CacheEntry — ticker maps to a record plus the
timestamp at which it was fetched. -/
structure CacheEntry where
  record : StockRecord
  fetchedAt : ℕ
  deriving DecidableEq

/-- Replace the sourceTag of a record (a cache hit is tagged CACHED, never
silently promoted to LIVE — §4.3). -/
def withTag (r : StockRecord) (tag : SourceTag) : StockRecord :=
  { r with sourceTag := tag }

/-- Modelled from the spec: §4.3 cache get — a fresh or stale-but-usable
entry (age up to the ceiling) is returned; beyond the ceiling the entry is
treated as absent.  The store is an association list where the most recent
put is in front, giving last-write-wins. -/
def cacheGet (cache : List (String × CacheEntry)) (t : String)
    (now ceiling : ℕ) : Option StockRecord :=
  match cache.lookup t with
  | some e => if now - e.fetchedAt ≤ ceiling then some e.record else none
  | none => none

/-- Modelled from the spec: §4.2 Local Fallback Store — a fixed table; a hit
is tagged FALLBACK, any other ticker is absent. -/
def lookupFallback (store : List (String × StockRecord)) (t : String) :
    Option StockRecord :=
  (store.lookup t).map (fun r => withTag r .fallback)

/-- Modelled from the spec: §4.5 — atomic per-ticker increment of the
popularity counter, inserting a first count of one for a new ticker. -/
def incrementCounter : List (String × ℕ) → String → List (String × ℕ)
  | [], t => [(t, 1)]
  | (k, v) :: rest, t =>
      if k = t then (k, v + 1) :: rest else (k, v) :: incrementCounter rest t

/-- Current count of a ticker in the popularity counter (zero if absent). -/
def countOf : List (String × ℕ) → String → ℕ
  | [], _ => 0
  | (k, v) :: rest, t => if k = t then v else countOf rest t

/-- The shared mutable state owned by the Retrieval Pipeline: the Cache Layer
and the Popularity Counter (§3 ownership note). -/
structure PipelineState where
  cache : List (String × CacheEntry)
  counter : List (String × ℕ)
  deriving DecidableEq

/-- The two outcomes `getStock` can surface to its caller (§7 propagation
policy): a well-formed StockRecord, or the distinct authoritative
ticker-not-found negative. -/
inductive GetStockOutcome where
  | record (r : StockRecord)
  | notFound (ticker : String)
  deriving DecidableEq

/-- Modelled from the spec: §4.4 steps 3-5 — the degraded path taken when the
Upstream Client fails transiently: consult the Cache Layer (fresh or
stale-but-usable, tagged CACHED), then the Local Fallback Store (tagged
FALLBACK), then give up with the synthetic unavailable record; no counter
increment on any of these paths. -/
def degradedOutcome (t : String) (fallbackStore : List (String × StockRecord))
    (now ceiling : ℕ) (st : PipelineState) : GetStockOutcome :=
  match cacheGet st.cache t now ceiling with
  | some r => .record (withTag r .cached)
  | none =>
      match lookupFallback fallbackStore t with
      | some r => .record r
      | none => .record (unavailableRecord t)

/-- Modelled from the spec: §4.4 getStock — normalize the ticker and return
an unavailable record immediately when it is empty or fails the format
invariant; on upstream success put the LIVE record in the cache and increment
the popularity counter; on NotFound skip cache and fallback entirely and
return the distinct not-found outcome; on RateLimited or Unavailable take the
degraded path.  The upstream client is passed as a function argument, the
shared cache/counter state explicitly. -/
def getStock (rawTicker : String) (upstream : String → UpstreamResult)
    (fallbackStore : List (String × StockRecord)) (now ceiling : ℕ)
    (st : PipelineState) : GetStockOutcome × PipelineState :=
  let t := normalizeTicker rawTicker
  if validTicker t then
    match upstream t with
    | .success r =>
        let liveRec := withTag { r with ticker := t } .live
        (.record liveRec,
          { cache := (t, ⟨liveRec, now⟩) :: st.cache,
            counter := incrementCounter st.counter t })
    | .notFound => (.notFound t, st)
    | .rateLimited => (degradedOutcome t fallbackStore now ceiling st, st)
    | .unavailable => (degradedOutcome t fallbackStore now ceiling st, st)
  else (.record (unavailableRecord t), st)

/-- Modelled from the spec: §7 — the two failure reasons getHistory may
surface (InvalidParameter for a bad period, NotFound as the authoritative
negative). -/
inductive HistFailure where
  | invalidParameter
  | notFound
  deriving DecidableEq

/-- Modelled from the spec: §4.1 — the fixed enumerated set of accepted
history periods. -/
def validPeriods : List String :=
  ["1mo", "3mo", "6mo", "1y", "5y"]

/-- Modelled from the spec: §4.4 history retrieval — validate the period
against the fixed set and fail with InvalidParameter before any upstream
call; otherwise delegate to the Upstream Client.  The Bool records whether
the Upstream Client was invoked. -/
def getHistory (ticker period : String)
    (upstream : String → String → Except HistFailure (List HistoryPoint)) :
    Except HistFailure (List HistoryPoint) × Bool :=
  if period ∈ validPeriods then (upstream ticker period, true)
  else (Except.error .invalidParameter, false)

/-- Modelled from the spec: §4.5 and the boundary surface of §6 — one row of
the popularity listing, a ticker with its count. -/
structure CounterRow where
  ticker : String
  count : ℕ
  deriving DecidableEq

/-- Modelled from the spec: §4.5 topN ordering — higher count first, ties
broken by ticker lexical order ascending. -/
def topNOrder (a b : CounterRow) : Prop :=
  b.count < a.count ∨ (a.count = b.count ∧ a.ticker ≤ b.ticker)

instance : DecidableRel topNOrder := fun a b => by
  unfold topNOrder
  infer_instance

/-- Modelled from the spec: §4.5 topN, row form — sort the counter rows by
descending count with lexical tie-break and keep the first n. -/
def topNRows (counts : List CounterRow) (n : ℕ) : List CounterRow :=
  (List.insertionSort topNOrder counts).take n

/-- Modelled from the spec: §4.5 topN — the n tickers with highest count. -/
def topN (counts : List CounterRow) (n : ℕ) : List String :=
  (topNRows counts n).map CounterRow.ticker

/-- The four mutually exclusive renders of StockPage
(src/frontend/src/pages/StockPage.js lines 133-155 and 196 onward): the
loading spinner, the error alert, the not-found warning alert shown when no
stock info was received, and the full stock view. -/
inductive PageView where
  | spinner
  | errorAlert (msg : String)
  | notFoundAlert (ticker : String)
  | stockView (info : StockRecord)
  deriving DecidableEq

/-- The early-return cascade of StockPage as a function of its state cells:
`if (loading)` renders the spinner, `if (error)` the error alert,
`if (!stockInfo)` the warning alert naming the ticker, otherwise the stock
view. -/
def stockPageView (loading : Bool) (error : Option String)
    (stockInfo : Option StockRecord) (ticker : String) : PageView :=
  if loading then .spinner
  else
    match error with
    | some e => .errorAlert e
    | none =>
        match stockInfo with
        | none => .notFoundAlert ticker
        | some info => .stockView info

theorem data_ne_NA_of_dollar_head (s : String) (h : ∃ l, s.data = '$' :: l) :
    s ≠ "N/A" := by
  rintro rfl
  obtain ⟨l, hl⟩ := h
  have h2 : "N/A".data = ['N', '/', 'A'] := rfl
  rw [h2] at hl
  injection hl with h1 _
  exact absurd h1 (by decide)

theorem dollar_suffixed_ne_NA (t u : String) : ("$" ++ t ++ u : String) ≠ "N/A" := by
  apply data_ne_NA_of_dollar_head
  refine ⟨t.data ++ u.data, ?_⟩
  rw [String.data_append, String.data_append]
  rw [show "$".data = ['$'] from rfl]
  simp

theorem dollar_plain_ne_NA (t : String) : ("$" ++ t : String) ≠ "N/A" := by
  apply data_ne_NA_of_dollar_head
  refine ⟨t.data, ?_⟩
  rw [String.data_append]
  rw [show "$".data = ['$'] from rfl]
  simp

/-- C1: a numeric field carrying the exact string N/A is displayed as N/A,
an output distinct from the display of every number; in particular
formatNumber of 0 is the two-decimal dollar string for zero and of the marker
is the marker itself, so an absent field is never conflated with zero. -/
theorem formatNumber_marker_never_conflated_with_zero :
    formatNumber (.num 0) = some "$0.00" ∧
    formatNumber (.str "N/A") = some "N/A" ∧
    ∀ q : ℚ, formatNumber (.num q) ≠ some "N/A" := by
  refine ⟨by decide, by decide, ?_⟩
  intro q
  unfold formatNumber
  split
  · next h => exact absurd h (by simp)
  split
  · intro h
    rw [Option.some.injEq] at h
    exact dollar_suffixed_ne_NA _ _ h
  split
  · intro h
    rw [Option.some.injEq] at h
    exact dollar_suffixed_ne_NA _ _ h
  split
  · intro h
    rw [Option.some.injEq] at h
    exact dollar_suffixed_ne_NA _ _ h
  · intro h
    rw [Option.some.injEq] at h
    exact dollar_plain_ne_NA _ h

/-- C1 witness: the distinctness instantiated at a concrete number. -/
theorem formatNumber_marker_never_conflated_with_zero_witness :
    formatNumber (.num 42) ≠ some "N/A" :=
  formatNumber_marker_never_conflated_with_zero.2.2 42

/-- C10 counterexample: the string 5000 is neither a number nor the marker,
yet formatNumber does not throw on it — the threshold comparisons coerce the
string to 5000 and the K branch formats it, refuting that every non-marker
string input throws. -/
theorem formatNumber_numeric_string_no_throw :
    ("5000" : String) ≠ "N/A" ∧ formatNumber (.str "5000") = some "$5.00K" :=
  ⟨by decide, by with_unfolding_all rfl⟩

/-- C10 (amended): formatNumber never throws for a number or for the exact
marker string: numbers at least 1e9 yield the dollar string suffixed B, from
1e6 below 1e9 suffixed M, from 1e3 below 1e6 suffixed K, and otherwise the
plain two-decimal dollar string, while the marker returns the marker; a
non-marker string throws exactly when its ToNumber coercion is NaN, negative
infinity, or a finite value below 1000 — a string coercing to positive
infinity or to a value of at least 1000 is formatted instead of throwing. -/
theorem formatNumber_totality_amended :
    (∀ q : ℚ,
      formatNumber (.num q) =
        some (if 1000000000 ≤ q then "$" ++ toFixed2 (q / 1000000000) ++ "B"
          else if 1000000 ≤ q then "$" ++ toFixed2 (q / 1000000) ++ "M"
          else if 1000 ≤ q then "$" ++ toFixed2 (q / 1000) ++ "K"
          else "$" ++ toFixed2 q)) ∧
    formatNumber (.str "N/A") = some "N/A" ∧
    ∀ s : String, s ≠ "N/A" →
      ((formatNumber (.str s)).isSome ↔
        jsStringToNumber s = some .posInf ∨
        ∃ q : ℚ, jsStringToNumber s = some (.finite q) ∧ 1000 ≤ q) := by
  refine ⟨?_, by decide, ?_⟩
  · intro q
    by_cases h9 : (1000000000 : ℚ) ≤ q
    · simp [formatNumber, jsGE, jsDiv, jsToFixed2, h9]
    · by_cases h6 : (1000000 : ℚ) ≤ q
      · simp [formatNumber, jsGE, jsDiv, jsToFixed2, h9, h6]
      · by_cases h3 : (1000 : ℚ) ≤ q
        · simp [formatNumber, jsGE, jsDiv, jsToFixed2, h9, h6, h3]
        · simp [formatNumber, jsGE, jsDiv, jsToFixed2, h9, h6, h3]
  · intro s hs
    cases hq : jsStringToNumber s with
    | none => simp [formatNumber, jsGE, hs, hq]
    | some n =>
        cases n with
        | posInf => simp [formatNumber, jsGE, hs, hq]
        | negInf => simp [formatNumber, jsGE, hs, hq]
        | finite q =>
            by_cases h9 : (1000000000 : ℚ) ≤ q
            · simp [formatNumber, jsGE, hs, hq, h9]
              linarith
            · by_cases h6 : (1000000 : ℚ) ≤ q
              · simp [formatNumber, jsGE, hs, hq, h9, h6]
                linarith
              · by_cases h3 : (1000 : ℚ) ≤ q
                · simp [formatNumber, jsGE, hs, hq, h9, h6, h3]
                · simp [formatNumber, jsGE, hs, hq, h9, h6, h3]

/-- C10 witness: the throw characterization instantiated at the string
Infinity, which coerces to positive infinity and is formatted rather than
thrown on. -/
theorem formatNumber_totality_amended_witness :
    (formatNumber (.str "Infinity")).isSome ↔
      jsStringToNumber "Infinity" = some .posInf ∨
      ∃ q : ℚ, jsStringToNumber "Infinity" = some (.finite q) ∧ 1000 ≤ q :=
  formatNumber_totality_amended.2.2 "Infinity" (by decide)

/-- C9: the change chip shows the positive styling — TrendingUp icon, plus
prefix, success color — exactly when change is strictly positive; a change of
exactly zero is rendered with the TrendingDown icon, the error color and no
plus sign. -/
theorem changeChip_positive_styling_iff :
    (∀ c : ℚ,
      ((changeChip c).icon = .trendingUp ↔ 0 < c) ∧
      ((changeChip c).showPlus = true ↔ 0 < c) ∧
      ((changeChip c).color = .success ↔ 0 < c)) ∧
    changeChip 0 = ⟨.trendingDown, false, "0.00%", .error⟩ := by
  constructor
  · intro c
    by_cases h : (0 : ℚ) < c <;> simp [changeChip, h]
  · decide

/-- C9 witness: the iff instantiated at a strictly positive change. -/
theorem changeChip_positive_styling_iff_witness :
    (changeChip 5).icon = ChipIcon.trendingUp ↔ (0 : ℚ) < 5 :=
  (changeChip_positive_styling_iff.1 5).1

/-- C8: when the history request throws or the response carries success
false, both stockHistory and timeRange are left unchanged; on a successful
response both are updated together — the payload and the requested period. -/
theorem fetchHistoricalData_state_policy :
    ∀ (st : HistViewState) (period : String) (data : List HistoryPoint),
      fetchHistoricalData st period .thrown = st ∧
      fetchHistoricalData st period (.payload false data) = st ∧
      fetchHistoricalData st period (.payload true data) =
        { stockHistory := some data, timeRange := period } := by
  intro st period data
  exact ⟨rfl, rfl, rfl⟩

/-- C3: getHistory accepts exactly the five enumerated periods, failing with
InvalidParameter without invoking the Upstream Client on every other period,
and every period the UI can issue is drawn from the timeRanges values — which
are exactly the five accepted periods — with 1y as the initial default. -/
theorem getHistory_period_validation :
    (∀ (t p : String)
      (up : String → String → Except HistFailure (List HistoryPoint)),
      (p ∈ validPeriods → getHistory t p up = (up t p, true)) ∧
      (p ∉ validPeriods →
        getHistory t p up = (Except.error .invalidParameter, false))) ∧
    validPeriods = ["1mo", "3mo", "6mo", "1y", "5y"] ∧
    timeRanges.map TimeRange.value = validPeriods ∧
    initialTimeRange = "1y" ∧ initialTimeRange ∈ validPeriods := by
  refine ⟨?_, rfl, by decide, rfl, by decide⟩
  intro t p up
  constructor
  · intro h
    simp [getHistory, h]
  · intro h
    simp [getHistory, h]

/-- C3 witness: the period 2w is outside the set and is rejected without the
Upstream Client being called. -/
theorem getHistory_period_validation_witness :
    getHistory "AAPL" "2w" (fun _ _ => Except.ok []) =
      (Except.error .invalidParameter, false) :=
  (getHistory_period_validation.1 "AAPL" "2w" (fun _ _ => Except.ok [])).2
    (by decide)

/-- C5: getStock normalizes its ticker by trimming and uppercasing and, for
every input that is empty after trimming, returns the unavailable record at
once with the shared state untouched and a result independent of every tier;
the search form submits the trimmed uppercased input and performs no
navigation when the trimmed input is empty. -/
theorem empty_ticker_short_circuit :
    (∀ raw : String, jsTrim raw = "" →
      ∀ (up : String → UpstreamResult) (fb : List (String × StockRecord))
        (now ceiling : ℕ) (st : PipelineState),
        getStock raw up fb now ceiling st = (.record (unavailableRecord ""), st)) ∧
    (∀ s : String, jsTrim s = "" → handleSearch s = none) ∧
    (∀ s : String, jsTrim s ≠ "" →
      handleSearch s = some ("/stock/" ++ jsToUpper (jsTrim s))) := by
  refine ⟨?_, ?_, ?_⟩
  · intro raw h up fb now ceiling st
    have ht : normalizeTicker raw = "" := by
      rw [normalizeTicker, h]
      rfl
    simp [getStock, ht, validTicker]
  · intro s h
    simp [handleSearch, h]
  · intro s h
    simp [handleSearch, h]

/-- C5 witness: a whitespace-only input short-circuits the pipeline and the
search form does not navigate on it, while a padded lowercase ticker is
trimmed and uppercased. -/
theorem empty_ticker_short_circuit_witness :
    getStock "  " (fun _ => .rateLimited) [] 0 0 ⟨[], []⟩ =
      (.record (unavailableRecord ""), ⟨[], []⟩) ∧
    handleSearch "  " = none :=
  ⟨empty_ticker_short_circuit.1 "  " (by decide) (fun _ => .rateLimited) [] 0 0
    ⟨[], []⟩,
   empty_ticker_short_circuit.2.1 "  " (by decide)⟩

theorem lookupFallback_tag (fb : List (String × StockRecord)) (t : String)
    (r : StockRecord) (h : lookupFallback fb t = some r) :
    r.sourceTag = .fallback := by
  unfold lookupFallback at h
  cases hl : fb.lookup t with
  | none =>
      rw [hl] at h
      simp at h
  | some r0 =>
      rw [hl] at h
      simp at h
      rw [← h]
      rfl

theorem degradedOutcome_spec (t : String) (fb : List (String × StockRecord))
    (now ceiling : ℕ) (st : PipelineState) :
    ∃ r, degradedOutcome t fb now ceiling st = .record r ∧ r.sourceTag ≠ .live := by
  unfold degradedOutcome
  cases hc : cacheGet st.cache t now ceiling with
  | some r => exact ⟨withTag r .cached, rfl, by simp [withTag]⟩
  | none =>
      cases hf : lookupFallback fb t with
      | some r =>
          refine ⟨r, rfl, ?_⟩
          rw [lookupFallback_tag fb t r hf]
          simp
      | none => exact ⟨unavailableRecord t, rfl, by simp [unavailableRecord]⟩

theorem countOf_increment_self (c : List (String × ℕ)) (t : String) :
    countOf (incrementCounter c t) t = countOf c t + 1 := by
  induction c with
  | nil => simp [incrementCounter, countOf]
  | cons head rest ih =>
      obtain ⟨k, v⟩ := head
      by_cases hk : k = t
      · subst hk
        simp [incrementCounter, countOf]
      · simp [incrementCounter, countOf, hk, ih]

theorem countOf_increment_other (c : List (String × ℕ)) (t u : String)
    (h : u ≠ t) : countOf (incrementCounter c t) u = countOf c u := by
  induction c with
  | nil => simp [incrementCounter, countOf, Ne.symm h]
  | cons head rest ih =>
      obtain ⟨k, v⟩ := head
      by_cases hk : k = t
      · subst hk
        simp [incrementCounter, countOf, Ne.symm h]
      · simp [incrementCounter, countOf, hk, ih]

theorem getStock_degraded_eq (raw : String) (up : String → UpstreamResult)
    (fb : List (String × StockRecord)) (now ceiling : ℕ) (st : PipelineState)
    (hv : validTicker (normalizeTicker raw) = true)
    (hu : up (normalizeTicker raw) = .rateLimited ∨
      up (normalizeTicker raw) = .unavailable) :
    getStock raw up fb now ceiling st =
      (degradedOutcome (normalizeTicker raw) fb now ceiling st, st) := by
  rcases hu with hu | hu <;> simp [getStock, hv, hu]

/-- C2: getStock never propagates a raw upstream failure to its caller — for
every ticker and environment the outcome is a StockRecord, except that an
upstream NotFound surfaces as the explicit not-found outcome; and when the
upstream fails transiently with no usable cache entry and no fallback entry,
the returned record has every numeric field marked unavailable and the
total-failure sourceTag. -/
theorem getStock_never_fails_outward :
    (∀ (raw : String) (up : String → UpstreamResult)
      (fb : List (String × StockRecord)) (now ceiling : ℕ) (st : PipelineState),
      (∃ r, (getStock raw up fb now ceiling st).1 = .record r) ∨
      ((getStock raw up fb now ceiling st).1 = .notFound (normalizeTicker raw) ∧
        up (normalizeTicker raw) = .notFound)) ∧
    (∀ (raw : String) (up : String → UpstreamResult)
      (fb : List (String × StockRecord)) (now ceiling : ℕ) (st : PipelineState),
      (up (normalizeTicker raw) = .rateLimited ∨
        up (normalizeTicker raw) = .unavailable) →
      cacheGet st.cache (normalizeTicker raw) now ceiling = none →
      lookupFallback fb (normalizeTicker raw) = none →
      (getStock raw up fb now ceiling st).1 =
        .record (unavailableRecord (normalizeTicker raw)) ∧
      allNumericUnavailable (unavailableRecord (normalizeTicker raw)) ∧
      (unavailableRecord (normalizeTicker raw)).sourceTag = .totalFailure) := by
  constructor
  · intro raw up fb now ceiling st
    by_cases hv : validTicker (normalizeTicker raw) = true
    · cases hu : up (normalizeTicker raw) with
      | success r0 =>
          left
          exact ⟨withTag { r0 with ticker := normalizeTicker raw } .live,
            by simp [getStock, hv, hu]⟩
      | notFound =>
          right
          exact ⟨by simp [getStock, hv, hu], rfl⟩
      | rateLimited =>
          left
          obtain ⟨r, hr, _⟩ :=
            degradedOutcome_spec (normalizeTicker raw) fb now ceiling st
          exact ⟨r, by simp [getStock, hv, hu, hr]⟩
      | unavailable =>
          left
          obtain ⟨r, hr, _⟩ :=
            degradedOutcome_spec (normalizeTicker raw) fb now ceiling st
          exact ⟨r, by simp [getStock, hv, hu, hr]⟩
    · left
      exact ⟨unavailableRecord (normalizeTicker raw), by simp [getStock, hv]⟩
  · intro raw up fb now ceiling st hu hc hf
    refine ⟨?_, by simp [allNumericUnavailable, unavailableRecord], rfl⟩
    by_cases hv : validTicker (normalizeTicker raw) = true
    · rw [getStock_degraded_eq raw up fb now ceiling st hv hu]
      simp [degradedOutcome, hc, hf]
    · simp [getStock, hv]

/-- C2 witness: with the upstream unavailable and both cache and fallback
empty, the pipeline returns the all-unavailable total-failure record rather
than an error. -/
theorem getStock_never_fails_outward_witness :
    (getStock "AAPL" (fun _ => .unavailable) [] 0 0 ⟨[], []⟩).1 =
      .record (unavailableRecord (normalizeTicker "AAPL")) :=
  (getStock_never_fails_outward.2 "AAPL" (fun _ => .unavailable) [] 0 0 ⟨[], []⟩
    (Or.inr rfl) rfl rfl).1

/-- C4: when the Upstream Client reports NotFound for a (valid) ticker,
getStock returns the distinct not-found outcome with the shared state
untouched, whatever the cache and fallback store contain — the tiers are
skipped; the not-found outcome is not a record; and the UI renders a missing
stock info as the distinct not-found alert, which is not the stock view of
any record. -/
theorem notFound_skips_tiers :
    (∀ (raw : String) (up : String → UpstreamResult)
      (fb : List (String × StockRecord)) (now ceiling : ℕ) (st : PipelineState),
      validTicker (normalizeTicker raw) = true →
      up (normalizeTicker raw) = .notFound →
      getStock raw up fb now ceiling st = (.notFound (normalizeTicker raw), st)) ∧
    (∀ (t : String) (r : StockRecord), GetStockOutcome.notFound t ≠ .record r) ∧
    (∀ ticker : String,
      stockPageView false none none ticker = .notFoundAlert ticker) ∧
    (∀ (ticker : String) (info : StockRecord),
      PageView.notFoundAlert ticker ≠ .stockView info) := by
  refine ⟨?_, ?_, ?_, ?_⟩
  · intro raw up fb now ceiling st hv hu
    simp [getStock, hv, hu]
  · intro t r h
    exact GetStockOutcome.noConfusion h
  · intro ticker
    rfl
  · intro ticker info h
    exact PageView.noConfusion h

/-- C4 witness: ticker ZZZZ reported NotFound upstream yields the not-found
outcome even though both the cache and the fallback store contain an entry
for it. -/
theorem notFound_skips_tiers_witness :
    getStock "ZZZZ" (fun _ => .notFound) [("ZZZZ", unavailableRecord "ZZZZ")]
      5 100 ⟨[("ZZZZ", ⟨unavailableRecord "ZZZZ", 5⟩)], []⟩ =
      (.notFound (normalizeTicker "ZZZZ"),
        ⟨[("ZZZZ", ⟨unavailableRecord "ZZZZ", 5⟩)], []⟩) :=
  notFound_skips_tiers.1 "ZZZZ" (fun _ => .notFound)
    [("ZZZZ", unavailableRecord "ZZZZ")] 5 100
    ⟨[("ZZZZ", ⟨unavailableRecord "ZZZZ", 5⟩)], []⟩ (by decide) rfl

/-- C6: across any getStock call the popularity count of every ticker is
monotonically non-decreasing; when the call returns a LIVE record the count
of the requested (normalized) ticker is incremented by exactly one and no
other ticker's count changes; when the outcome is a CACHED, FALLBACK or
total-failure record, or the not-found outcome, the counter is unchanged. -/
theorem popularity_counter_policy :
    ∀ (raw : String) (up : String → UpstreamResult)
      (fb : List (String × StockRecord)) (now ceiling : ℕ) (st : PipelineState),
      (∀ t, countOf st.counter t ≤
        countOf (getStock raw up fb now ceiling st).2.counter t) ∧
      (∀ r, (getStock raw up fb now ceiling st).1 = .record r →
        r.sourceTag = .live →
        countOf (getStock raw up fb now ceiling st).2.counter
            (normalizeTicker raw) =
          countOf st.counter (normalizeTicker raw) + 1 ∧
        ∀ t, t ≠ normalizeTicker raw →
          countOf (getStock raw up fb now ceiling st).2.counter t =
            countOf st.counter t) ∧
      (∀ r, (getStock raw up fb now ceiling st).1 = .record r →
        r.sourceTag ≠ .live →
        (getStock raw up fb now ceiling st).2 = st) ∧
      (∀ t, (getStock raw up fb now ceiling st).1 = .notFound t →
        (getStock raw up fb now ceiling st).2 = st) := by
  intro raw up fb now ceiling st
  by_cases hv : validTicker (normalizeTicker raw) = true
  · cases hu : up (normalizeTicker raw) with
    | success r0 =>
        have hg : getStock raw up fb now ceiling st =
            (.record (withTag { r0 with ticker := normalizeTicker raw } .live),
              { cache := (normalizeTicker raw,
                  ⟨withTag { r0 with ticker := normalizeTicker raw } .live, now⟩)
                    :: st.cache,
                counter := incrementCounter st.counter (normalizeTicker raw) }) := by
          simp [getStock, hv, hu]
        rw [hg]
        refine ⟨?_, ?_, ?_, ?_⟩
        · intro t
          by_cases ht : t = normalizeTicker raw
          · subst ht
            rw [countOf_increment_self]
            exact Nat.le_succ _
          · rw [countOf_increment_other st.counter (normalizeTicker raw) t ht]
        · intro r hr _
          exact ⟨countOf_increment_self st.counter (normalizeTicker raw),
            fun t ht => countOf_increment_other st.counter (normalizeTicker raw) t ht⟩
        · intro r hr hl
          injection hr with hr
          rw [← hr] at hl
          exact absurd rfl hl
        · intro t hr
          exact GetStockOutcome.noConfusion hr
    | notFound =>
        have hg : getStock raw up fb now ceiling st =
            (.notFound (normalizeTicker raw), st) := by
          simp [getStock, hv, hu]
        rw [hg]
        refine ⟨fun t => le_refl _, ?_, fun r hr _ => rfl, fun t hr => rfl⟩
        intro r hr
        exact absurd hr (by exact fun h => GetStockOutcome.noConfusion h)
    | rateLimited =>
        have hg := getStock_degraded_eq raw up fb now ceiling st hv (Or.inl hu)
        rw [hg]
        refine ⟨fun t => le_refl _, ?_, fun r hr _ => rfl, fun t hr => rfl⟩
        intro r hr hl
        obtain ⟨r2, hr2, hl2⟩ :=
          degradedOutcome_spec (normalizeTicker raw) fb now ceiling st
        rw [hr2] at hr
        injection hr with hr
        rw [hr] at hl2
        exact absurd hl hl2
    | unavailable =>
        have hg := getStock_degraded_eq raw up fb now ceiling st hv (Or.inr hu)
        rw [hg]
        refine ⟨fun t => le_refl _, ?_, fun r hr _ => rfl, fun t hr => rfl⟩
        intro r hr hl
        obtain ⟨r2, hr2, hl2⟩ :=
          degradedOutcome_spec (normalizeTicker raw) fb now ceiling st
        rw [hr2] at hr
        injection hr with hr
        rw [hr] at hl2
        exact absurd hl hl2
  · have hg : getStock raw up fb now ceiling st =
        (.record (unavailableRecord (normalizeTicker raw)), st) := by
      simp [getStock, hv]
    rw [hg]
    refine ⟨fun t => le_refl _, ?_, fun r hr _ => rfl, fun t hr => rfl⟩
    intro r hr hl
    injection hr with hr
    rw [← hr] at hl
    exact absurd hl (by simp [unavailableRecord])

/-- C6 witness: a concrete LIVE retrieval increments the requested ticker's
count by exactly one. -/
theorem popularity_counter_policy_witness :
    countOf (getStock "AAPL" (fun t => .success (unavailableRecord t)) [] 0 0
        ⟨[], []⟩).2.counter (normalizeTicker "AAPL") =
      countOf (⟨[], []⟩ : PipelineState).counter (normalizeTicker "AAPL") + 1 :=
  ((popularity_counter_policy "AAPL" (fun t => .success (unavailableRecord t))
      [] 0 0 ⟨[], []⟩).2.1
    (withTag { unavailableRecord (normalizeTicker "AAPL") with
        ticker := normalizeTicker "AAPL" } .live)
    (by with_unfolding_all rfl) rfl).1

instance : IsTotal CounterRow topNOrder := ⟨by
  intro a b
  rcases lt_trichotomy a.count b.count with h | h | h
  · exact Or.inr (Or.inl h)
  · rcases le_total a.ticker b.ticker with ht | ht
    · exact Or.inl (Or.inr ⟨h, ht⟩)
    · exact Or.inr (Or.inr ⟨h.symm, ht⟩)
  · exact Or.inl (Or.inl h)⟩

instance : IsTrans CounterRow topNOrder := ⟨by
  intro a b c hab hbc
  rcases hab with h1 | ⟨h1, t1⟩ <;> rcases hbc with h2 | ⟨h2, t2⟩
  · exact Or.inl (by omega)
  · exact Or.inl (by omega)
  · exact Or.inl (by omega)
  · exact Or.inr ⟨h1.trans h2, t1.trans t2⟩⟩

theorem topNOrder_count_le (x y : CounterRow) (h : topNOrder x y) :
    y.count ≤ x.count := by
  rcases h with h | ⟨h, _⟩
  · exact le_of_lt h
  · exact le_of_eq h.symm

/-- C7: topN returns the n tickers with the highest counts — the result is
the sorted-by-descending-count prefix with ties broken by ascending lexical
ticker order, its length is n (capped by the table size), the selected rows
together with the discarded ones are a permutation of the table, every
selected row's count is at least every discarded row's count, and on the
example counter table the result is AAPL, MSFT, GOOGL with the AAPL/MSFT tie
broken lexically.  (The embedding is a pure function of the counter table, so
repeated calls with unchanged counts return the same sequence by
construction.) -/
theorem topN_highest_counts :
    (∀ (counts : List CounterRow) (n : ℕ),
      List.Sorted topNOrder (topNRows counts n) ∧
      (topNRows counts n).length = min n counts.length ∧
      ∃ rest : List CounterRow,
        (topNRows counts n ++ rest).Perm counts ∧
        ∀ x ∈ topNRows counts n, ∀ y ∈ rest, y.count ≤ x.count) ∧
    topN [⟨"AAPL", 5⟩, ⟨"MSFT", 5⟩, ⟨"GOOGL", 3⟩] 3 =
      ["AAPL", "MSFT", "GOOGL"] := by
  constructor
  · intro counts n
    refine ⟨?_, ?_, ?_⟩
    · exact List.Pairwise.sublist (List.take_sublist n _)
        (List.sorted_insertionSort topNOrder counts)
    · rw [topNRows, List.length_take, List.length_insertionSort]
    · refine ⟨(List.insertionSort topNOrder counts).drop n, ?_, ?_⟩
      · rw [topNRows, List.take_append_drop]
        exact List.perm_insertionSort topNOrder counts
      · have hs : List.Pairwise topNOrder
            ((List.insertionSort topNOrder counts).take n ++
              (List.insertionSort topNOrder counts).drop n) := by
          rw [List.take_append_drop]
          exact List.sorted_insertionSort topNOrder counts
        intro x hx y hy
        exact topNOrder_count_le x y
          ((List.pairwise_append.mp hs).2.2 x hx y hy)
  · with_unfolding_all rfl

/-- C7 witness: the cross inequality instantiated on the example table — the
selected AAPL row outcounts the discarded rows of the two-element prefix. -/
theorem topN_highest_counts_witness :
    ∃ rest : List CounterRow,
      (topNRows [⟨"AAPL", 5⟩, ⟨"MSFT", 5⟩, ⟨"GOOGL", 3⟩] 2 ++ rest).Perm
        [⟨"AAPL", 5⟩, ⟨"MSFT", 5⟩, ⟨"GOOGL", 3⟩] ∧
      ∀ x ∈ topNRows [⟨"AAPL", 5⟩, ⟨"MSFT", 5⟩, ⟨"GOOGL", 3⟩] 2,
        ∀ y ∈ rest, y.count ≤ x.count :=
  (topN_highest_counts.1 [⟨"AAPL", 5⟩, ⟨"MSFT", 5⟩, ⟨"GOOGL", 3⟩] 2).2.2

end StockAnalyzer
